import Mathlib

set_option maxHeartbeats 1000000

/-!
# Verification of the cognition-app orchestration core

This file is a shallow embedding, in Lean 4, of the orchestration core of
`backend/app/main.py`: the issue query pipeline (`get_issues`), the
structured-output extractor (`extract_structured_output_from_messages`),
the poll endpoint with its pull-request trigger (`get_devin_session`),
plan execution (`execute_plan`), the active-session listing
(`get_active_sessions`), session cancellation (`cancel_session`) and the
TTL sweep (`cleanup_old_sessions`), together with the error-message
scrubbing performed on the `connect_repo` and `DevinAPIService` error
paths.

Conventions of the embedding:
* Python `dict`s keyed by strings become association lists
  (`List (String × β)`); insertion order is preserved, as in Python.
* Python `datetime` values become rationals (`ℚ`), measured in hours, so
  that `timedelta(hours=24)` is the literal `24`.
* Python `sorted` (a stable sort) is modelled by a stable insertion sort
  (`insSort`); `sorted(..., reverse=True)` is modelled by sorting with
  the flipped key comparison, which agrees with CPython's semantics
  (ties keep their original order in both).
* Python string operations `needle in hay` and `str.replace` are
  modelled over the underlying character lists (`pyStrIn`, `pyReplace`);
  `str.lower()` is modelled by `String.toLower` (faithful on ASCII).
* `json.loads` and the regular expression
  `OPEN-FENCE json \s* (\x7b.*?\x7d) \s* CLOSE-FENCE` (with `re.DOTALL`,
  non-greedy body) are modelled operationally by a fuel-indexed JSON
  parser and a scanner with exactly the leftmost, non-overlapping,
  minimal-body match semantics of `re.findall` on this pattern.
* Network calls (`httpx`, the Devin API, the GitHub API) are modelled by
  explicit outcome parameters: each endpoint model takes the outcome of
  its outbound calls as an argument instead of performing I/O.
* A raised `HTTPException` becomes `Except.error` of an `HttpError`
  record; a normal return becomes `Except.ok`.
-/

/-! ## Stable insertion sort (model of Python `sorted`) -/

/-- Insert `a` into `l` in front of the first element `x` with `le a x`.
With a total preorder `le` this is the insertion step of a stable
insertion sort: an inserted element goes before every equal element that
came later in the original list. -/
def ordInsert (le : α → α → Bool) (a : α) : List α → List α
  | [] => [a]
  | x :: t => if le a x then a :: x :: t else x :: ordInsert le a t

/-- Stable insertion sort; models Python `sorted(l, key=...)` where
`le a b` is `key(a) <= key(b)`. -/
def insSort (le : α → α → Bool) : List α → List α
  | [] => []
  | a :: t => ordInsert le a (insSort le t)

/-- Tag each element of a list with its position, starting at `n`. -/
def tagFrom (n : Nat) : List α → List (Nat × α)
  | [] => []
  | a :: t => (n, a) :: tagFrom (n + 1) t

/-- Strict "comes before" relation of a stable sort on position-tagged
elements: `a` precedes `b` when its key is strictly smaller, or the keys
are tied (`le` holds both ways) and `a` occupied the earlier original
position. -/
def stepRelB (le : α → α → Bool) (a b : Nat × α) : Bool :=
  le a.2 b.2 && (!(le b.2 a.2) || decide (a.1 < b.1))

/-! ## Python sequence slicing -/

/-- Effective index of a Python slice bound `i` for a sequence of length
`len`: negative bounds count from the end and clamp at `0`, non-negative
bounds clamp at `len`. -/
def pyIdx (len : Nat) (i : Int) : Nat :=
  if i < 0 then (Int.ofNat len + i).toNat else min i.toNat len

/-- Python slice `l[start:stop]`. -/
def pySlice (l : List α) (start stop : Int) : List α :=
  (l.take (pyIdx l.length stop)).drop (pyIdx l.length start)

/-! ## Python string membership and replacement -/

/-- Python `needle in hay` for strings: contiguous substring test. -/
def pyStrIn (needle hay : String) : Bool :=
  decide (needle.data <:+: hay.data)

/-- Worker for `pyReplace` on character lists, for a nonempty pattern
`key`: repeatedly replace the leftmost occurrence of `key` by `rep` and
continue after the replacement, exactly as CPython's `str.replace`.
`fuel` bounds the recursion; one character is consumed per step, so
`fuel = s.length` is always sufficient. -/
def pyReplaceAux (key rep : List Char) : Nat → List Char → List Char
  | _, [] => []
  | 0, s => s
  | fuel + 1, c :: rest =>
    if key.isPrefixOf (c :: rest) then
      rep ++ pyReplaceAux key rep fuel (rest.drop (key.length - 1))
    else
      c :: pyReplaceAux key rep fuel rest

/-- Python `s.replace(key, rep)` (all occurrences, leftmost first,
non-overlapping).  For the degenerate empty pattern CPython inserts
`rep` before every character and once at the end. -/
def pyReplace (s key rep : String) : String :=
  if key.data.isEmpty then
    String.mk (rep.data ++ s.data.flatMap (fun c => c :: rep.data))
  else
    String.mk (pyReplaceAux key.data rep.data s.data.length s.data)

/-- All characters of `key` avoid the character list `s`. -/
abbrev charDisjoint (key s : List Char) : Prop :=
  ∀ c ∈ key, c ∉ s

/-! ## Issue store and the `get_issues` query pipeline -/

/-- An issue record as stored in `issues_store` (the fields produced by
`connect_repo` / `resync_repo`). `created_at` is an epoch timestamp. -/
structure Issue where
  id : Int
  number : Int
  title : String
  body : String
  labels : List String
  author : String
  created_at : Int
  age_days : Int
  status : String
deriving DecidableEq, Repr

/-- Key comparison used by `get_issues` for a given `sort_by` field:
`created_at`, `age_days` and `number` compare the numeric field, `title`
compares the lower-cased title; the final `else` arm is the `number`
branch of the source's `elif` chain. -/
def fieldLe (sb : String) (a b : Issue) : Bool :=
  if sb = "created_at" then decide (a.created_at ≤ b.created_at)
  else if sb = "age_days" then decide (a.age_days ≤ b.age_days)
  else if sb = "title" then decide (a.title.toLower ≤ b.title.toLower)
  else decide (a.number ≤ b.number)

/-- The comparison actually used by the sort: `reverse=True` flips the
key comparison (stability is unaffected, as in CPython). -/
def issueLe (sb : String) (rev : Bool) (a b : Issue) : Bool :=
  if rev then fieldLe sb b a else fieldLe sb a b

/-- Text filter of `get_issues`: case-insensitive substring match of `q`
on the title (`q.lower() in issue["title"].lower()`). -/
def titleMatches (q : String) (i : Issue) : Bool :=
  pyStrIn q.toLower i.title.toLower

/-- Label filter of `get_issues`: exact membership in the label list. -/
def labelMatches (lab : String) (i : Issue) : Bool :=
  i.labels.contains lab

/-- Apply the text filter; Python `if q:` skips the filter for `None`
and for the empty string (both falsy). -/
def applyQFilter (q : Option String) (l : List Issue) : List Issue :=
  match q with
  | none => l
  | some s => if s = "" then l else l.filter (titleMatches s)

/-- Apply the label filter; Python `if label:` skips `None` and `""`. -/
def applyLabelFilter (lab : Option String) (l : List Issue) : List Issue :=
  match lab with
  | none => l
  | some s => if s = "" then l else l.filter (labelMatches s)

/-- `valid_sort_fields` from the source. -/
def validSortFields : List String := ["created_at", "age_days", "title", "number"]

/-- `sort_by` normalisation: anything outside `valid_sort_fields`
(including an absent value) falls back to `created_at`. -/
def resolveSortBy (sort_by : Option String) : String :=
  match sort_by with
  | none => "created_at"
  | some s => if s ∈ validSortFields then s else "created_at"

/-- `reverse_order = bool(sort_order and sort_order.lower() == "desc")`:
`None` gives `false`; otherwise compare the lower-cased value with
`"desc"` (the empty string also yields `false`, matching truthiness). -/
def resolveRev (sort_order : Option String) : Bool :=
  match sort_order with
  | none => false
  | some s => s.toLower == "desc"

/-- The issue query of `get_issues` (main.py lines 886-932), after any
`load_more` ingestion: sort the stored issues, then apply the text and
label filters, then slice the requested page.  Returns the page and
`total_available_estimate = len(issues)` where `issues` is the filtered
list. -/
def get_issues_core (issues : List Issue) (q label : Option String)
    (page pageSize : Int) (sort_by sort_order : Option String) :
    List Issue × Nat :=
  let sb := resolveSortBy sort_by
  let rev := resolveRev sort_order
  let sorted := insSort (issueLe sb rev) issues
  let f1 := applyQFilter q sorted
  let f2 := applyLabelFilter label f1
  let start := (page - 1) * pageSize
  (pySlice f2 start (start + pageSize), f2.length)

/-- The reference pipeline named by the specification: filter first,
then the stable sort, then pagination, returning the page and the
filtered-set size. -/
def get_issues_refPipeline (issues : List Issue) (q label : Option String)
    (page pageSize : Int) (sort_by sort_order : Option String) :
    List Issue × Nat :=
  let sb := resolveSortBy sort_by
  let rev := resolveRev sort_order
  let f1 := applyQFilter q issues
  let f2 := applyLabelFilter label f1
  let sorted := insSort (issueLe sb rev) f2
  let start := (page - 1) * pageSize
  (pySlice sorted start (start + pageSize), f2.length)

/-- `issueLe` lifted to position-tagged issues. -/
def taggedIssueLe (sb : String) (rev : Bool) (a b : Nat × Issue) : Bool :=
  issueLe sb rev a.2 b.2

/-- Text filter on position-tagged issues. -/
def applyQFilterT (q : Option String) (l : List (Nat × Issue)) : List (Nat × Issue) :=
  match q with
  | none => l
  | some s => if s = "" then l else l.filter (fun p => titleMatches s p.2)

/-- Label filter on position-tagged issues. -/
def applyLabelFilterT (lab : Option String) (l : List (Nat × Issue)) : List (Nat × Issue) :=
  match lab with
  | none => l
  | some s => if s = "" then l else l.filter (fun p => labelMatches s p.2)

/-- The `get_issues` pipeline run over issues tagged with their original
position in the store, used to express stability: projecting the tags
away recovers the untagged pipeline. -/
def get_issues_tagged (issues : List Issue) (q label : Option String)
    (page pageSize : Int) (sb : String) (rev : Bool) : List (Nat × Issue) :=
  let sorted := insSort (taggedIssueLe sb rev) (tagFrom 0 issues)
  let f1 := applyQFilterT q sorted
  let f2 := applyLabelFilterT label f1
  let start := (page - 1) * pageSize
  pySlice f2 start (start + pageSize)

/-! ## JSON values and a model of `json.loads` -/

/-- JSON values. Numeric literals keep their source text (their numeric
value is never consulted by the program paths modelled here); objects
keep key/value pairs in insertion order with the last assignment to a
repeated key winning, as in a Python `dict`. -/
inductive Json where
  | null : Json
  | boolean : Bool → Json
  | num : String → Json
  | str : String → Json
  | arr : List Json → Json
  | obj : List (String × Json) → Json

/-- The character `\x7b`. -/
def jsonLBrace : Char := Char.ofNat 123

/-- The character `\x7d`. -/
def jsonRBrace : Char := Char.ofNat 125

/-- JSON insignificant whitespace (the four characters skipped by
Python's `json` scanner). -/
def jsonWsChar (c : Char) : Bool :=
  c = ' ' || c = '\t' || c = '\n' || c = '\r'

/-- Skip JSON whitespace. -/
def skipJsonWs (s : List Char) : List Char :=
  s.dropWhile jsonWsChar

/-- Value of a hexadecimal digit. -/
def hexVal (c : Char) : Option Nat :=
  if c.isDigit then some (c.toNat - 48)
  else if 'a' ≤ c ∧ c ≤ 'f' then some (c.toNat - 87)
  else if 'A' ≤ c ∧ c ≤ 'F' then some (c.toNat - 70)
  else none

/-- Parse the body of a JSON string after the opening quote, returning
the decoded characters and the input after the closing quote.  Rejects
invalid escapes and raw control characters, as Python's strict decoder
does.  (`\uXXXX` is decoded with `Char.ofNat`; combining surrogate
pairs, which Lean's `Char` cannot represent half of, is simplified.) -/
def parseStringBody : List Char → Option (List Char × List Char)
  | [] => none
  | c :: rest =>
    if c = '"' then some ([], rest)
    else if c = '\\' then
      match rest with
      | [] => none
      | e :: rest2 =>
        if e = '"' ∨ e = '\\' ∨ e = '/' then
          (parseStringBody rest2).map (fun p => (e :: p.1, p.2))
        else if e = 'b' then
          (parseStringBody rest2).map (fun p => (Char.ofNat 8 :: p.1, p.2))
        else if e = 'f' then
          (parseStringBody rest2).map (fun p => (Char.ofNat 12 :: p.1, p.2))
        else if e = 'n' then
          (parseStringBody rest2).map (fun p => ('\n' :: p.1, p.2))
        else if e = 'r' then
          (parseStringBody rest2).map (fun p => ('\r' :: p.1, p.2))
        else if e = 't' then
          (parseStringBody rest2).map (fun p => ('\t' :: p.1, p.2))
        else if e = 'u' then
          match rest2 with
          | h1 :: h2 :: h3 :: h4 :: rest3 =>
            match hexVal h1, hexVal h2, hexVal h3, hexVal h4 with
            | some v1, some v2, some v3, some v4 =>
              (parseStringBody rest3).map
                (fun p => (Char.ofNat (((v1 * 16 + v2) * 16 + v3) * 16 + v4) :: p.1, p.2))
            | _, _, _, _ => none
          | _ => none
        else none
    else if c.toNat < 32 then none
    else (parseStringBody rest).map (fun p => (c :: p.1, p.2))

/-- Optional fraction part `.digits` of a JSON number; if the dot is not
followed by a digit nothing is consumed (the dot is then a syntax error
at the enclosing level, as with Python's NUMBER_RE). -/
def numFrac : List Char → List Char × List Char
  | '.' :: t =>
    let ds := t.takeWhile Char.isDigit
    if ds.isEmpty then ([], '.' :: t) else ('.' :: ds, t.drop ds.length)
  | s => ([], s)

/-- Optional exponent part `[eE][+-]?digits` of a JSON number. -/
def numExp (s : List Char) : List Char × List Char :=
  match s with
  | c :: t =>
    if c = 'e' ∨ c = 'E' then
      match t with
      | c2 :: t2 =>
        if c2 = '+' ∨ c2 = '-' then
          let ds := t2.takeWhile Char.isDigit
          if ds.isEmpty then ([], s) else (c :: c2 :: ds, t2.drop ds.length)
        else
          let ds := t.takeWhile Char.isDigit
          if ds.isEmpty then ([], s) else (c :: ds, t.drop ds.length)
      | [] => ([], s)
    else ([], s)
  | [] => ([], [])

/-- Parse a JSON number token `-?(0|[1-9][0-9]*)(.[0-9]+)?([eE][+-]?[0-9]+)?`,
returning its source text and the remaining input. -/
def parseNumber (s : List Char) : Option (String × List Char) :=
  let sgn : List Char × List Char :=
    match s with
    | '-' :: t => (['-'], t)
    | _ => ([], s)
  match sgn.2 with
  | [] => none
  | c :: t =>
    if c = '0' then
      let fr := numFrac t
      let ex := numExp fr.2
      some (String.mk (sgn.1 ++ ['0'] ++ fr.1 ++ ex.1), ex.2)
    else if c.isDigit then
      let ds := t.takeWhile Char.isDigit
      let fr := numFrac (t.drop ds.length)
      let ex := numExp fr.2
      some (String.mk (sgn.1 ++ (c :: ds) ++ fr.1 ++ ex.1), ex.2)
    else none

/-- Assignment to a key of a JSON object with Python `dict` semantics:
an existing key keeps its position and receives the new value, a new key
is appended. -/
def objInsert (kvs : List (String × Json)) (k : String) (v : Json) :
    List (String × Json) :=
  if kvs.any (fun p => p.1 == k) then
    kvs.map (fun p => if p.1 == k then (p.1, v) else p)
  else kvs ++ [(k, v)]

/-- Parser mode: a whole value, the pairs of an object after `\x7b` (with
the pairs accumulated so far), or the elements of an array after `[`. -/
inductive PMode where
  | value : PMode
  | objPairs : List (String × Json) → PMode
  | arrElems : List Json → PMode

/-- Recursive core of the `json.loads` model.  The input to `value` mode
must already have leading whitespace skipped.  `fuel` only bounds the
recursion depth; every recursive call consumes at least one character
first, so the top-level fuel of `3 * length + 16` never runs out. -/
def parseCore : Nat → PMode → List Char → Option (Json × List Char)
  | 0, _, _ => none
  | fuel + 1, PMode.value, s =>
    match s with
    | [] => none
    | c :: rest =>
      if c = jsonLBrace then
        match skipJsonWs rest with
        | c2 :: r2 =>
          if c2 = jsonRBrace then some (Json.obj [], r2)
          else parseCore fuel (PMode.objPairs []) (c2 :: r2)
        | [] => none
      else if c = '[' then
        match skipJsonWs rest with
        | c2 :: r2 =>
          if c2 = ']' then some (Json.arr [], r2)
          else parseCore fuel (PMode.arrElems []) (c2 :: r2)
        | [] => none
      else if c = '"' then
        match parseStringBody rest with
        | some p => some (Json.str (String.mk p.1), p.2)
        | none => none
      else if c = 't' then
        if ['r', 'u', 'e'].isPrefixOf rest then some (Json.boolean true, rest.drop 3)
        else none
      else if c = 'f' then
        if ['a', 'l', 's', 'e'].isPrefixOf rest then some (Json.boolean false, rest.drop 4)
        else none
      else if c = 'n' then
        if ['u', 'l', 'l'].isPrefixOf rest then some (Json.null, rest.drop 3)
        else none
      else if c = 'N' then
        if ['a', 'N'].isPrefixOf rest then some (Json.num "NaN", rest.drop 2)
        else none
      else if c = 'I' then
        if ['n', 'f', 'i', 'n', 'i', 't', 'y'].isPrefixOf rest then
          some (Json.num "Infinity", rest.drop 7)
        else none
      else if c = '-' && ['I', 'n', 'f', 'i', 'n', 'i', 't', 'y'].isPrefixOf rest then
        some (Json.num "-Infinity", rest.drop 8)
      else
        match parseNumber (c :: rest) with
        | some p => some (Json.num p.1, p.2)
        | none => none
  | fuel + 1, PMode.objPairs acc, s =>
    match s with
    | c :: rest =>
      if c = '"' then
        match parseStringBody rest with
        | some kp =>
          match skipJsonWs kp.2 with
          | c2 :: r2 =>
            if c2 = ':' then
              match parseCore fuel PMode.value (skipJsonWs r2) with
              | some vp =>
                match skipJsonWs vp.2 with
                | c3 :: r4 =>
                  if c3 = jsonRBrace then
                    some (Json.obj (objInsert acc (String.mk kp.1) vp.1), r4)
                  else if c3 = ',' then
                    parseCore fuel (PMode.objPairs (objInsert acc (String.mk kp.1) vp.1))
                      (skipJsonWs r4)
                  else none
                | [] => none
              | none => none
            else none
          | [] => none
        | none => none
      else none
    | [] => none
  | fuel + 1, PMode.arrElems acc, s =>
    match parseCore fuel PMode.value s with
    | some vp =>
      match skipJsonWs vp.2 with
      | c :: r2 =>
        if c = ']' then some (Json.arr (acc ++ [vp.1]), r2)
        else if c = ',' then parseCore fuel (PMode.arrElems (acc ++ [vp.1])) (skipJsonWs r2)
        else none
      | [] => none
    | none => none

/-- Model of `json.loads`: parse one value with surrounding whitespace
allowed; any trailing non-whitespace is an error. -/
def json_loads (s : String) : Option Json :=
  match parseCore (3 * s.data.length + 16) PMode.value (skipJsonWs s.data) with
  | some p => if (skipJsonWs p.2).isEmpty then some p.1 else none
  | none => none

/-! ## Fenced-block extraction (`extract_structured_output_from_messages`) -/

/-- Characters matched by the regex class `\s` (ASCII part). -/
def regexWsChar (c : Char) : Bool :=
  c = ' ' || c = '\t' || c = '\n' || c = '\r' || c = Char.ofNat 11 || c = Char.ofNat 12

/-- The literal opening fence of the pattern: three backticks then
`json`. -/
def fenceJson : List Char := "```json".data

/-- The literal closing fence: three backticks. -/
def fenceEnd : List Char := "```".data

/-- Scan the body after the opening `\x7b` for the non-greedy end of the
captured group: the first `\x7d` that is followed by (maximal) `\s*` and
the closing fence.  Returns the captured characters (through that
`\x7d`) and the input just after the closing fence. -/
def scanFenceBody : List Char → Option (List Char × List Char)
  | [] => none
  | c :: rest =>
    if c = jsonRBrace then
      let w := rest.dropWhile regexWsChar
      if fenceEnd.isPrefixOf w then
        some ([c], w.drop fenceEnd.length)
      else
        (scanFenceBody rest).map (fun p => (c :: p.1, p.2))
    else
      (scanFenceBody rest).map (fun p => (c :: p.1, p.2))

/-- Try to match the whole pattern at the current position: the opening
fence, then `\s*` (maximal, since `\x7b` is not whitespace), then the
captured `\x7b...\x7d` body, then `\s*` and the closing fence.  Returns
the capture and the rest of the input after the match. -/
def tryFenceAt (s : List Char) : Option (List Char × List Char) :=
  if fenceJson.isPrefixOf s then
    match (s.drop fenceJson.length).dropWhile regexWsChar with
    | c :: rest =>
      if c = jsonLBrace then
        (scanFenceBody rest).map (fun p => (jsonLBrace :: p.1, p.2))
      else none
    | [] => none
  else none

/-- `re.findall` of the fenced-JSON pattern: try a match at every
position left to right; after a match, resume after its end.  `fuel`
bounds the walk; every step consumes at least one character, so
`fuel = s.length` is always sufficient. -/
def findBlocksAux : Nat → List Char → List (List Char)
  | 0, _ => []
  | _, [] => []
  | fuel + 1, c :: rest =>
    match tryFenceAt (c :: rest) with
    | some p => p.1 :: findBlocksAux fuel p.2
    | none => findBlocksAux fuel rest

/-- All captures of the fenced-JSON pattern in a message text, in match
order. -/
def findJsonBlocks (s : String) : List String :=
  (findBlocksAux s.data.length s.data).map String.mk

/-- One transcript message as consumed by the extractor: its `type`
field and its `message` text. -/
structure DevinMessage where
  type : String
  message : String

/-- Does a parsed object have the given key? (Python `key in parsed`.) -/
def objHasKey (kvs : List (String × Json)) (k : String) : Bool :=
  kvs.any (fun p => p.1 == k)

/-- One candidate block: accept it when it parses as JSON and the parsed
object carries `progress_pct`, `status` and `summary`; otherwise skip it
(a parse failure is caught, not fatal). -/
def blockValid (s : String) : Option (List (String × Json)) :=
  match json_loads s with
  | some (Json.obj kvs) =>
    if objHasKey kvs "progress_pct" && objHasKey kvs "status" && objHasKey kvs "summary" then
      some kvs
    else none
  | _ => none

/-- First structurally valid block of a match list, in match order. -/
def firstValidBlock : List String → Option (List (String × Json))
  | [] => none
  | b :: rest =>
    match blockValid b with
    | some kvs => some kvs
    | none => firstValidBlock rest

/-- The extractor's scan: walk the (already reversed) message list, skip
messages whose `type` is not `devin_message`, and return the first valid
block of the first message that yields one. -/
def extractScan : List DevinMessage → Option (List (String × Json))
  | [] => none
  | m :: rest =>
    if m.type == "devin_message" then
      match firstValidBlock (findJsonBlocks m.message) with
      | some kvs => some kvs
      | none => extractScan rest
    else extractScan rest

/-- Model of `extract_structured_output_from_messages` (main.py lines
1394-1415): scan the transcript most-recent-first. -/
def extract_structured_output_from_messages (messages : List DevinMessage) :
    Option (List (String × Json)) :=
  extractScan messages.reverse

/-- The scan described by the claim's words, which does not restrict the
scan to agent-authored messages: every transcript message is examined. -/
def extractScanAllTypes : List DevinMessage → Option (List (String × Json))
  | [] => none
  | m :: rest =>
    match firstValidBlock (findJsonBlocks m.message) with
    | some kvs => some kvs
    | none => extractScanAllTypes rest

/-- The claim's extractor: most-recent-first over all messages. -/
def extractAllMessages (messages : List DevinMessage) :
    Option (List (String × Json)) :=
  extractScanAllTypes messages.reverse

/-- Declarative form of the extractor actually implemented: restrict the
reversed transcript to `devin_message` entries, then return the first
valid fenced block.  Used as the amended specification. -/
def extractSpecDevin (messages : List DevinMessage) :
    Option (List (String × Json)) :=
  (messages.reverse.filter (fun m => m.type == "devin_message")).findSome?
    (fun m => firstValidBlock (findJsonBlocks m.message))

/-! ## Association-list stores (Python dict semantics) -/

/-- First value bound to `k` (Python dict lookup; keys are unique in the
stores the program builds). -/
def lookupA (l : List (String × β)) (k : String) : Option β :=
  (l.find? (fun p => p.1 == k)).map Prod.snd

/-- Python `k in d`. -/
def hasKeyA (l : List (String × β)) (k : String) : Bool :=
  l.any (fun p => p.1 == k)

/-- Update every binding of `k` in place (Python mutates the single
binding of `k`; positions are preserved). -/
def updateA (l : List (String × β)) (k : String) (f : β → β) :
    List (String × β) :=
  l.map (fun p => if p.1 == k then (p.1, f p.2) else p)

/-- Python `d[k] = v`: overwrite in place, or append a new binding. -/
def insertA (l : List (String × β)) (k : String) (v : β) :
    List (String × β) :=
  if hasKeyA l k then updateA l k (fun _ => v) else l ++ [(k, v)]

/-! ## The poll endpoint `get_devin_session` and its PR trigger -/

/-- A raised `HTTPException`. -/
structure HttpError where
  status_code : Nat
  detail : String
deriving DecidableEq, Repr

/-- The body of `GET /v1/sessions/:id` as consumed by the endpoint:
`status`, `structured_output`, the message transcript and `url` (each
read with `.get`, hence optional). -/
structure SessionData where
  status : Option String
  structured_output : Option (List (String × Json))
  messages : List DevinMessage
  url : Option String

/-- The endpoint's response model `DevinSessionResponse`. -/
structure DevinSessionResponse where
  status : String
  structured_output : Option (List (String × Json))
  url : String

/-- One entry of `sessions_store`. -/
structure SessionMeta where
  issue_id : Int
  repo_id : String
  created_at : ℚ
  last_accessed : ℚ
  status : String
deriving DecidableEq, Repr

/-- One entry of `pr_creation_store` (the PRCreationIntent): issue
coordinates, the repository data captured at execute time, branch names
and the idempotency flag. -/
structure PRIntentData where
  issue_id : Int
  issue_number : Int
  repoOwner : String
  repoName : String
  repoPat : String
  branch_name : String
  target_branch : String
  pr_created : Bool
deriving DecidableEq, Repr

/-- The placeholder output the source would synthesise (main.py lines
1140-1150). -/
def placeholderOutput : List (String × Json) :=
  [("progress_pct", Json.num "0"), ("confidence", Json.str "low"),
   ("status", Json.str "scoping"), ("summary", Json.str "Creating Plan"),
   ("risks", Json.arr []), ("dependencies", Json.arr []),
   ("estimated_hours", Json.num "0"), ("action_plan", Json.arr []),
   ("branch_suggestion", Json.str "")]

/-- The structured-output computation of the poll endpoint (main.py
lines 1125-1150), translated branch for branch.  The second component
records whether the endpoint asked the agent to update its structured
output (the `send_message` in the `None`/`None` case).  Note the `elif`
guard `status == "running" and structured_output is None` is only
reached when `structured_output` is not `None`, so the placeholder
branch inside it is unreachable. -/
def computeStructuredOutput (status : String)
    (so : Option (List (String × Json))) (msgs : List DevinMessage) :
    Option (List (String × Json)) × Bool :=
  if so.isNone then
    match extract_structured_output_from_messages msgs with
    | some e => (some e, false)
    | none => (none, true)
  else if status = "running" ∧ so.isNone then
    let so2 :=
      match extract_structured_output_from_messages msgs with
      | some e => some e
      | none => so
    if so2.isNone ∧ (status = "blocked" ∨ status = "completed") then
      (some placeholderOutput, false)
    else (so2, false)
  else (so, false)

/-- Python `session_id.removeprefix("devin-")`. -/
def removePrefixStr (s p : String) : String :=
  if p.data.isPrefixOf s.data then String.mk (s.data.drop p.data.length) else s

/-- Guard of the PR trigger (main.py lines 1162-1165): the session is
completed (by upstream status, or by the status embedded in a truthy
structured output), an intent exists, and its `pr_created` flag is
false. -/
def prTriggerCond (status : String) (so : Option (List (String × Json)))
    (sid : String) (prStore : List (String × PRIntentData)) : Bool :=
  (status == "completed" ||
    (match so with
     | some o =>
       !o.isEmpty &&
         (match lookupA o "status" with
          | some (Json.str s) => s == "completed"
          | _ => false)
     | none => false))
  && hasKeyA prStore sid
  && (match lookupA prStore sid with
      | some it => !it.pr_created
      | none => false)

/-- The PR-trigger block of the poll (main.py lines 1162-1203).
`prResult` is the outcome of `create_github_pr`: `some url` on success,
`none` when the call raises (the exception is caught and only logged).
Returns the possibly updated structured output (`pr_url` written on
success), the updated `pr_creation_store`, and whether the GitHub
PR-create call was invoked. -/
def prTriggerStep (sid : String) (status : String)
    (so : Option (List (String × Json))) (prResult : Option String)
    (prStore : List (String × PRIntentData)) :
    Option (List (String × Json)) × List (String × PRIntentData) × Bool :=
  if prTriggerCond status so sid prStore then
    match prResult with
    | some url =>
      let so2 :=
        match so with
        | some o => some (objInsert o "pr_url" (Json.str url))
        | none => some [("pr_url", Json.str url)]
      (so2, updateA prStore sid (fun it => { it with pr_created := true }), true)
    | none => (so, prStore, true)
  else (so, prStore, false)

/-- Environment of one poll: the outcome of `devin_api.get_session`, the
outcome of `create_github_pr` if it is attempted, and the current
time. -/
structure PollEnv where
  fetch : Except HttpError SessionData
  prResult : Option String
  now : ℚ

/-- Result of one poll of the endpoint model. -/
structure PollOut where
  resp : Except HttpError DevinSessionResponse
  sessions : List (String × SessionMeta)
  prStore : List (String × PRIntentData)
  prCalled : Bool

/-- Model of the poll endpoint `get_devin_session` (main.py lines
1117-1220): fetch the session, compute the structured output with its
fallbacks, touch `sessions_store`, run the PR trigger, and return the
response.  A failed `get_session` propagates as the corresponding
`HTTPException`; a failed PR creation is swallowed. -/
def get_devin_session_model (sid : String) (env : PollEnv)
    (sessions : List (String × SessionMeta))
    (prStore : List (String × PRIntentData)) : PollOut :=
  match env.fetch with
  | Except.error e => ⟨Except.error e, sessions, prStore, false⟩
  | Except.ok sd =>
    let status := sd.status.getD "unknown"
    let so1 := (computeStructuredOutput status sd.structured_output sd.messages).1
    let url := sd.url.getD ("https://app.devin.ai/sessions/" ++ removePrefixStr sid "devin-")
    let sessions2 :=
      if hasKeyA sessions sid then
        updateA sessions sid (fun m => { m with last_accessed := env.now, status := status })
      else sessions
    let tr := prTriggerStep sid status so1 env.prResult prStore
    ⟨Except.ok ⟨status, tr.1, url⟩, sessions2, tr.2.1, tr.2.2⟩

/-- Accumulated result of a sequence of polls. -/
structure PollFoldOut where
  sessions : List (String × SessionMeta)
  prStore : List (String × PRIntentData)
  calls : Nat

/-- Run a sequence of polls of the same session, threading the stores
and counting how many times the GitHub PR-create call is invoked. -/
def pollFold (sid : String) : List PollEnv → List (String × SessionMeta) →
    List (String × PRIntentData) → PollFoldOut
  | [], sessions, prStore => ⟨sessions, prStore, 0⟩
  | e :: rest, sessions, prStore =>
    let out := get_devin_session_model sid e sessions prStore
    let tail := pollFold sid rest out.sessions out.prStore
    ⟨tail.sessions, tail.prStore, (if out.prCalled then 1 else 0) + tail.calls⟩

/-! ## Plan execution (`execute_plan`) -/

/-- One entry of `repos_store` (the fields consumed by the modelled
endpoints). -/
structure RepoData where
  id : String
  owner : String
  name : String
  url : String
  githubPat : String
deriving DecidableEq, Repr

/-- The issue search shared by `execute_plan` and `get_active_sessions`:
walk `issues_store` in insertion order and return the first repository
id and issue whose `id` matches. -/
def findIssueRepo (issuesStore : List (String × List Issue)) (issue_id : Int) :
    Option (String × Issue) :=
  match issuesStore with
  | [] => none
  | (rid, issues) :: rest =>
    match issues.find? (fun i => i.id == issue_id) with
    | some i => some (rid, i)
    | none => findIssueRepo rest issue_id

/-- The `ExecuteRequest` body. -/
structure ExecuteRequest where
  sessionId : String
  branchName : String
  targetBranch : String
  approved : Bool
  additionalContext : String
deriving DecidableEq, Repr

/-- The success body returned by `execute_plan`. -/
structure ExecuteResponse where
  sessionId : String
  message : String
  branchName : String
  targetBranch : String
deriving DecidableEq, Repr

/-- Outcome of an outbound Devin API call: success, an already-shaped
`HTTPException` (re-raised as is), or a generic exception with its
text. -/
inductive CallOutcome where
  | ok : CallOutcome
  | httpErr : HttpError → CallOutcome
  | exc : String → CallOutcome

/-- Scrub used on generic exception text: if the (truthy) API key occurs
in the text, replace every occurrence by `[REDACTED]`. -/
def scrubApiKey (apiKey text : String) : String :=
  if apiKey ≠ "" && pyStrIn apiKey text then pyReplace text apiKey "[REDACTED]" else text

/-- The execution prompt sent to the agent (main.py lines 1273-1300). -/
def executionPrompt (issue_number : Int) (req : ExecuteRequest) : String :=
  "The user has approved your plan. Continue with the implementation. " ++
  "Feel free to explore the repository as needed to inform your " ++
  "implementation and testing strategy, as well as the additional context " ++
  "that may have been provided by the developer.\n\nAdditional Context:\n" ++
  req.additionalContext ++
  "\n\nRequirements:\n- Create a new branch named: " ++ req.branchName ++
  " from " ++ req.targetBranch ++ ".\n" ++
  "- Implement the change set per the plan; write/adjust tests; run " ++
  "locally and capture screenshots if relevant.\n" ++
  "- Open a PR back to " ++ req.targetBranch ++ " with a detailed " ++
  "description following our PR template (devin_pr_template.md), including:\n" ++
  "  - Summary of changes\n" ++
  "  - Evidence: passing tests summary, and screenshots if UI\n" ++
  "  - Manual test plan / reproducible steps\n" ++
  "  - Checklist\n" ++
  "  - **IMPORTANT**: Include \"Closes #" ++ toString issue_number ++
  "\" in the PR description to automatically link and close the issue " ++
  "when merged\n\n" ++
  "As you make your updates, make sure you add to the structured output " ++
  "from the original prompt to update progress each time you complete a " ++
  "task, or each time you need to update the plan. The status should be " ++
  "\"executing\" during implementation and \"completed\" when finished " ++
  "with the PR created.\n\n" ++
  "Once the PR has been created, it can be added to the structured output."

/-- Result of `execute_plan`: the HTTP outcome, the two stores it may
mutate, and the list of prompts whose delivery to the agent service was
attempted (a ghost log used to state absence of side effects). -/
structure ExecuteOut where
  result : Except HttpError ExecuteResponse
  sessions : List (String × SessionMeta)
  prStore : List (String × PRIntentData)
  sentPrompts : List String

/-- Model of `execute_plan` (main.py lines 1249-1334).  The approval
check runs first and rejects with the 400 "must be explicitly approved"
error before any lookup or side effect.  On the approved path the issue
is located, the execution prompt is sent (outcome `sendResult`), and
only on successful delivery are the PR intent recorded and the session
touched. -/
def execute_plan_model (issue_id : Int) (req : ExecuteRequest)
    (issuesStore : List (String × List Issue)) (repos : List (String × RepoData))
    (sessions : List (String × SessionMeta)) (prStore : List (String × PRIntentData))
    (sendResult : CallOutcome) (apiKey : String) (now : ℚ) : ExecuteOut :=
  if !req.approved then
    ⟨Except.error ⟨400, "Plan must be explicitly approved before execution"⟩,
      sessions, prStore, []⟩
  else
    match findIssueRepo issuesStore issue_id with
    | none => ⟨Except.error ⟨404, "Issue not found"⟩, sessions, prStore, []⟩
    | some (rid, issue) =>
      match lookupA repos rid with
      | none => ⟨Except.error ⟨500, "Internal Server Error"⟩, sessions, prStore, []⟩
      | some repo =>
        let prompt := executionPrompt issue.number req
        match sendResult with
        | CallOutcome.httpErr e => ⟨Except.error e, sessions, prStore, [prompt]⟩
        | CallOutcome.exc t =>
          ⟨Except.error ⟨500, "Failed to execute plan: " ++ scrubApiKey apiKey t⟩,
            sessions, prStore, [prompt]⟩
        | CallOutcome.ok =>
          let prStore2 := insertA prStore req.sessionId
            ⟨issue_id, issue.number, repo.owner, repo.name, repo.githubPat,
              req.branchName, req.targetBranch, false⟩
          let sessions2 :=
            if hasKeyA sessions req.sessionId then
              updateA sessions req.sessionId
                (fun m => { m with status := "executing", last_accessed := now })
            else sessions
          ⟨Except.ok ⟨req.sessionId, "Execution started", req.branchName, req.targetBranch⟩,
            sessions2, prStore2, [prompt]⟩

/-! ## Active-session listing, cancellation and the TTL sweep -/

/-- One entry of the active-session listing. -/
structure ActiveSessionResponse where
  session_id : String
  issue_id : Int
  repo_id : String
  issue_title : String
  repo_name : String
  status : String
  created_at : ℚ
  last_accessed : ℚ
deriving DecidableEq, Repr

/-- Model of `get_active_sessions` (main.py lines 1348-1379): walk the
session store in order; skip sessions whose status is `completed` or
`failed`; for the rest, locate the issue — a session whose issue is not
found is silently skipped, and a found issue whose repository metadata
is absent raises (`repos_store[repo_id]`, a `KeyError` surfacing as an
internal server error). -/
def get_active_sessions_model (sessions : List (String × SessionMeta))
    (issuesStore : List (String × List Issue)) (repos : List (String × RepoData)) :
    Except HttpError (List ActiveSessionResponse) :=
  match sessions with
  | [] => Except.ok []
  | (sid, sd) :: rest =>
    if sd.status == "completed" || sd.status == "failed" then
      get_active_sessions_model rest issuesStore repos
    else
      match findIssueRepo issuesStore sd.issue_id with
      | none => get_active_sessions_model rest issuesStore repos
      | some (rid, issue) =>
        match lookupA repos rid with
        | none => Except.error ⟨500, "Internal Server Error"⟩
        | some repo =>
          match get_active_sessions_model rest issuesStore repos with
          | Except.ok tail =>
            Except.ok (⟨sid, sd.issue_id, sd.repo_id, issue.title, repo.name,
              sd.status, sd.created_at, sd.last_accessed⟩ :: tail)
          | Except.error e => Except.error e

/-- Declarative description of the successful listing: the non-
`completed`/`failed` sessions whose issue and repository metadata
resolve, joined with issue title and repository name. -/
def activeSessionsRef (sessions : List (String × SessionMeta))
    (issuesStore : List (String × List Issue)) (repos : List (String × RepoData)) :
    List ActiveSessionResponse :=
  sessions.filterMap (fun p =>
    if p.2.status == "completed" || p.2.status == "failed" then none
    else
      match findIssueRepo issuesStore p.2.issue_id with
      | none => none
      | some (rid, issue) =>
        (lookupA repos rid).map (fun repo =>
          ⟨p.1, p.2.issue_id, p.2.repo_id, issue.title, repo.name,
            p.2.status, p.2.created_at, p.2.last_accessed⟩))

/-- Model of `cancel_session` (main.py lines 1382-1391): 404 for an
unknown session, otherwise set the status to `cancelled` and touch
`last_accessed`. -/
def cancel_session_model (sid : String) (now : ℚ)
    (sessions : List (String × SessionMeta)) :
    Except HttpError Unit × List (String × SessionMeta) :=
  if hasKeyA sessions sid then
    (Except.ok (),
      updateA sessions sid (fun m => { m with status := "cancelled", last_accessed := now }))
  else
    (Except.error ⟨404, "Session not found"⟩, sessions)

/-- Model of `cleanup_old_sessions` (main.py lines 1418-1430): drop
every session whose `last_accessed` is strictly before `now − 24h`;
return the surviving store and the number of removed sessions. -/
def cleanup_old_sessions_model (now : ℚ)
    (sessions : List (String × SessionMeta)) :
    List (String × SessionMeta) × Nat :=
  let cutoff := now - 24
  ((sessions.filter (fun p => !decide (p.2.last_accessed < cutoff))),
    (sessions.filter (fun p => decide (p.2.last_accessed < cutoff))).length)

/-! ## Error-message construction on the scrubbed error paths -/

/-- Detail string of the generic exception handler of `connect_repo`
(main.py lines 698-705): the exception text, with every occurrence of
the submitted credential replaced by `[REDACTED]` when the credential
occurs in it, spliced into the fixed template. -/
def connect_repo_error_detail (pat excText : String) : String :=
  "Internal server error: " ++
    (if pyStrIn pat excText then pyReplace excText pat "[REDACTED]" else excText)

/-- Detail string of `DevinAPIService.create_session` for a non-200
response (main.py lines 375-380): the upstream response text is appended
only when it is non-empty and does not contain the API key.  `codeStr`
is the rendered status code. -/
def create_session_error_detail (apiKey codeStr respText : String) : String :=
  let base := "Failed to create Devin session: " ++ codeStr
  if respText ≠ "" && !pyStrIn apiKey respText then base ++ " - " ++ respText
  else base

/-! ## Concrete instances used by witnesses and counterexamples -/

/-- A fresh PR intent (for the C1 witness). -/
def c1Intent : PRIntentData := ⟨1, 1, "o", "r", "tok", "feat/x", "main", false⟩

/-- A poll of a completed session whose PR creation succeeds. -/
def c1Env : PollEnv :=
  ⟨Except.ok ⟨some "completed", none, [], some "http://u"⟩, some "http://pr/1", 0⟩

/-- Three identical successful polls. -/
def c1Envs : List PollEnv := [c1Env, c1Env, c1Env]

/-- A poll of a completed session with no upstream structured output, an
empty transcript, and no PR intent (for C2). -/
def c2Env : PollEnv :=
  ⟨Except.ok ⟨some "completed", none, [], some "http://u"⟩, none, 0⟩

/-- Issue joined by the C3 counterexample session. -/
def c3Issue : Issue := ⟨1, 1, "Fix the bug", "", [], "alice", 0, 0, "open"⟩

/-- A cancelled session (for C3). -/
def c3Meta : SessionMeta := ⟨1, "o/r", 0, 0, "cancelled"⟩

/-- Repository metadata for the C3 stores. -/
def c3Repo : RepoData := ⟨"o/r", "o", "r", "https://github.com/o/r", "tok"⟩

/-- Session store holding one cancelled session. -/
def c3Sessions : List (String × SessionMeta) := [("sC", c3Meta)]

/-- Issue store for C3. -/
def c3Issues : List (String × List Issue) := [("o/r", [c3Issue])]

/-- Repository store for C3. -/
def c3Repos : List (String × RepoData) := [("o/r", c3Repo)]

/-- The listing entry produced for the cancelled session. -/
def c3Entry : ActiveSessionResponse :=
  ⟨"sC", 1, "o/r", "Fix the bug", "r", "cancelled", 0, 0⟩

/-- Two issues tied on `created_at` (for the C5 witness). -/
def c5a : Issue := ⟨1, 1, "beta", "", ["x"], "u", 100, 5, "open"⟩

/-- Second issue of the C5 witness, tied with the first. -/
def c5b : Issue := ⟨2, 2, "alpha", "", ["x"], "u", 100, 3, "open"⟩

/-- The C5 witness store. -/
def c5Issues : List Issue := [c5a, c5b]

/-- A fresh PR intent (for the C6 witness). -/
def c6Intent : PRIntentData := ⟨2, 2, "o", "r", "tok", "feat/z", "main", false⟩

/-- A poll of a completed session whose PR creation fails. -/
def c6Env : PollEnv :=
  ⟨Except.ok ⟨some "completed", none, [], some "http://u"⟩, none, 0⟩

/-- An unapproved execute request (for the C7 witness). -/
def c7Req : ExecuteRequest := ⟨"s7", "feat/y", "main", false, ""⟩

/-- A transcript message that is not agent-authored but carries a valid
fenced structured-output block (for the C9 counterexample). -/
def c9Text : String :=
  "```json\n\x7b\"progress_pct\": 100, \"status\": \"blocked\", \"summary\": \"p\"\x7d\n```"

/-- The C9 counterexample transcript. -/
def c9Msgs : List DevinMessage := [⟨"user_message", c9Text⟩]

/-- A session about to be cancelled (for the C10 witness). -/
def c10Meta : SessionMeta := ⟨1, "o/r", 0, 0, "scoping"⟩

/-! ## Lemmas about the stable insertion sort -/

theorem mem_ordInsert (le : α → α → Bool) (a b : α) (l : List α) :
    b ∈ ordInsert le a l ↔ b = a ∨ b ∈ l := by
  induction l with
  | nil => simp [ordInsert]
  | cons x t ih =>
    cases h : le a x with
    | true => simp [ordInsert, h]
    | false =>
      simp [ordInsert, h, ih]
      tauto

theorem mem_insSort (le : α → α → Bool) (b : α) (l : List α) :
    b ∈ insSort le l ↔ b ∈ l := by
  induction l with
  | nil => simp [insSort]
  | cons a t ih => simp [insSort, mem_ordInsert, ih]

theorem length_ordInsert (le : α → α → Bool) (a : α) (l : List α) :
    (ordInsert le a l).length = l.length + 1 := by
  induction l with
  | nil => rfl
  | cons x t ih =>
    cases h : le a x with
    | true => simp [ordInsert, h]
    | false => simp [ordInsert, h, ih]

theorem length_insSort (le : α → α → Bool) (l : List α) :
    (insSort le l).length = l.length := by
  induction l with
  | nil => rfl
  | cons a t ih => simp [insSort, length_ordInsert, ih]

theorem ordInsert_of_forall_le (le : α → α → Bool) (a : α) (l : List α)
    (h : ∀ b ∈ l, le a b = true) : ordInsert le a l = a :: l := by
  cases l with
  | nil => rfl
  | cons x t => simp [ordInsert, h x (by simp)]

theorem pairwise_le_ordInsert (le : α → α → Bool)
    (htot : ∀ a b, le a b = true ∨ le b a = true)
    (htrans : ∀ a b c, le a b = true → le b c = true → le a c = true)
    (a : α) (l : List α) (hl : l.Pairwise (fun x y => le x y = true)) :
    (ordInsert le a l).Pairwise (fun x y => le x y = true) := by
  induction l with
  | nil => simp [ordInsert]
  | cons x t ih =>
    rcases List.pairwise_cons.mp hl with ⟨hx, ht⟩
    cases h : le a x with
    | true =>
      have he : ordInsert le a (x :: t) = a :: x :: t := by simp [ordInsert, h]
      rw [he]
      refine List.pairwise_cons.mpr ⟨?_, hl⟩
      intro b hb
      rcases List.mem_cons.mp hb with rfl | hb2
      · exact h
      · exact htrans a x b h (hx b hb2)
    | false =>
      have he : ordInsert le a (x :: t) = x :: ordInsert le a t := by
        simp [ordInsert, h]
      rw [he]
      refine List.pairwise_cons.mpr ⟨?_, ih ht⟩
      intro b hb
      rcases (mem_ordInsert le a b t).mp hb with rfl | hb2
      · rcases htot b x with h1 | h1
        · rw [h] at h1; cases h1
        · exact h1
      · exact hx b hb2

theorem pairwise_le_insSort (le : α → α → Bool)
    (htot : ∀ a b, le a b = true ∨ le b a = true)
    (htrans : ∀ a b c, le a b = true → le b c = true → le a c = true)
    (l : List α) :
    (insSort le l).Pairwise (fun x y => le x y = true) := by
  induction l with
  | nil => simp [insSort]
  | cons a t ih => exact pairwise_le_ordInsert le htot htrans a _ ih

theorem filter_ordInsert (le : α → α → Bool) (p : α → Bool)
    (htrans : ∀ a b c, le a b = true → le b c = true → le a c = true)
    (a : α) (l : List α)
    (hl : l.Pairwise (fun x y => le x y = true)) :
    (ordInsert le a l).filter p =
      if p a then ordInsert le a (l.filter p) else l.filter p := by
  induction l with
  | nil => cases hpa : p a <;> simp [ordInsert, List.filter_cons, hpa]
  | cons x t ih =>
    rcases List.pairwise_cons.mp hl with ⟨hx, ht⟩
    cases h : le a x with
    | true =>
      have he : ordInsert le a (x :: t) = a :: x :: t := by simp [ordInsert, h]
      rw [he]
      cases hpa : p a with
      | true =>
        have hall : ∀ b ∈ (x :: t).filter p, le a b = true := by
          intro b hb
          have hbm := List.mem_of_mem_filter hb
          rcases List.mem_cons.mp hbm with rfl | hb2
          · exact h
          · exact htrans a x b h (hx b hb2)
        rw [ordInsert_of_forall_le le a _ hall]
        simp [List.filter_cons, hpa]
      | false => simp [List.filter_cons, hpa]
    | false =>
      have he : ordInsert le a (x :: t) = x :: ordInsert le a t := by
        simp [ordInsert, h]
      rw [he]
      cases hpx : p x with
      | true =>
        cases hpa : p a <;>
          simp [List.filter_cons, hpx, hpa, ih ht, ordInsert, h]
      | false =>
        cases hpa : p a <;> simp [List.filter_cons, hpx, hpa, ih ht]

theorem filter_insSort (le : α → α → Bool) (p : α → Bool)
    (htot : ∀ a b, le a b = true ∨ le b a = true)
    (htrans : ∀ a b c, le a b = true → le b c = true → le a c = true)
    (l : List α) :
    (insSort le l).filter p = insSort le (l.filter p) := by
  induction l with
  | nil => rfl
  | cons a t ih =>
    have hs := pairwise_le_insSort le htot htrans t
    rw [insSort, filter_ordInsert le p htrans a _ hs]
    cases hpa : p a with
    | true => simp [List.filter_cons, hpa, insSort, ih]
    | false => simp [List.filter_cons, hpa, ih]

theorem map_ordInsert (f : α → β) (le : β → β → Bool) (a : α) (l : List α) :
    ordInsert le (f a) (l.map f) = (ordInsert (fun x y => le (f x) (f y)) a l).map f := by
  induction l with
  | nil => rfl
  | cons x t ih =>
    cases h : le (f a) (f x) with
    | true => simp [ordInsert, h]
    | false => simp [ordInsert, h, ih]

theorem map_insSort (f : α → β) (le : β → β → Bool) (l : List α) :
    insSort le (l.map f) = (insSort (fun x y => le (f x) (f y)) l).map f := by
  induction l with
  | nil => rfl
  | cons a t ih => simp [insSort, ih, map_ordInsert]

theorem map_snd_tagFrom (n : Nat) (l : List α) :
    (tagFrom n l).map Prod.snd = l := by
  induction l generalizing n with
  | nil => rfl
  | cons a t ih => simp [tagFrom, ih]

theorem tagFrom_ge (n : Nat) (l : List α) : ∀ p ∈ tagFrom n l, n ≤ p.1 := by
  induction l generalizing n with
  | nil => simp [tagFrom]
  | cons a t ih =>
    intro p hp
    rcases List.mem_cons.mp hp with rfl | hp2
    · exact le_refl n
    · exact Nat.le_of_succ_le (ih (n + 1) p hp2)

theorem pairwise_stepRelB_ordInsert (le : α → α → Bool)
    (htot : ∀ a b, le a b = true ∨ le b a = true)
    (htrans : ∀ a b c, le a b = true → le b c = true → le a c = true)
    (a : Nat × α) (l : List (Nat × α))
    (hidx : ∀ b ∈ l, a.1 < b.1)
    (hl : l.Pairwise (fun x y => stepRelB le x y = true)) :
    (ordInsert (fun x y => le x.2 y.2) a l).Pairwise
      (fun x y => stepRelB le x y = true) := by
  induction l with
  | nil => simp [ordInsert]
  | cons x t ih =>
    rcases List.pairwise_cons.mp hl with ⟨hx, ht⟩
    cases h : le a.2 x.2 with
    | true =>
      have he : ordInsert (fun x y : Nat × α => le x.2 y.2) a (x :: t) = a :: x :: t := by
        simp [ordInsert, h]
      rw [he]
      refine List.pairwise_cons.mpr ⟨?_, hl⟩
      intro b hb
      have hab : a.1 < b.1 := hidx b hb
      rcases List.mem_cons.mp hb with rfl | hb2
      · simp [stepRelB, h, hab]
      · have hxb : le x.2 b.2 = true := by
          have hsx := hx b hb2
          simp [stepRelB] at hsx
          exact hsx.1
        simp [stepRelB, htrans _ _ _ h hxb, hab]
    | false =>
      have he : ordInsert (fun x y : Nat × α => le x.2 y.2) a (x :: t) =
          x :: ordInsert (fun x y : Nat × α => le x.2 y.2) a t := by
        simp [ordInsert, h]
      rw [he]
      have hxa : le x.2 a.2 = true := by
        rcases htot a.2 x.2 with h1 | h1
        · rw [h] at h1; cases h1
        · exact h1
      refine List.pairwise_cons.mpr
        ⟨?_, ih (fun b hb => hidx b (List.mem_cons_of_mem x hb)) ht⟩
      intro b hb
      rcases (mem_ordInsert _ a b t).mp hb with rfl | hb2
      · simp [stepRelB, hxa, h]
      · exact hx b hb2

theorem pairwise_stepRelB_insSort (le : α → α → Bool)
    (htot : ∀ a b, le a b = true ∨ le b a = true)
    (htrans : ∀ a b c, le a b = true → le b c = true → le a c = true)
    (n : Nat) (l : List α) :
    (insSort (fun x y : Nat × α => le x.2 y.2) (tagFrom n l)).Pairwise
      (fun x y => stepRelB le x y = true) := by
  induction l generalizing n with
  | nil => simp [tagFrom, insSort]
  | cons a t ih =>
    rw [tagFrom, insSort]
    apply pairwise_stepRelB_ordInsert le htot htrans
    · intro b hb
      have hb2 : b ∈ tagFrom (n + 1) t := (mem_insSort _ b _).mp hb
      have := tagFrom_ge (n + 1) t b hb2
      omega
    · exact ih (n + 1)

theorem pySlice_sublist (l : List α) (s e : Int) : (pySlice l s e).Sublist l :=
  (List.drop_sublist _ _).trans (List.take_sublist _ _)

theorem pySlice_map (f : α → β) (l : List α) (s e : Int) :
    (pySlice l s e).map f = pySlice (l.map f) s e := by
  simp [pySlice]

/-! ## Totality and transitivity of the issue key comparisons -/

theorem fieldLe_total (sb : String) (a b : Issue) :
    fieldLe sb a b = true ∨ fieldLe sb b a = true := by
  unfold fieldLe
  split_ifs <;> simp only [decide_eq_true_eq] <;> exact le_total _ _

theorem fieldLe_trans (sb : String) (a b c : Issue) :
    fieldLe sb a b = true → fieldLe sb b c = true → fieldLe sb a c = true := by
  unfold fieldLe
  split_ifs <;> simp only [decide_eq_true_eq] <;> exact le_trans

theorem issueLe_total (sb : String) (rev : Bool) (a b : Issue) :
    issueLe sb rev a b = true ∨ issueLe sb rev b a = true := by
  cases rev
  · simpa [issueLe] using fieldLe_total sb a b
  · simpa [issueLe] using fieldLe_total sb b a

theorem issueLe_trans (sb : String) (rev : Bool) (a b c : Issue) :
    issueLe sb rev a b = true → issueLe sb rev b c = true →
    issueLe sb rev a c = true := by
  cases rev
  · simpa [issueLe] using fieldLe_trans sb a b c
  · simp only [issueLe, if_pos]
    intro h1 h2
    exact fieldLe_trans sb c b a h2 h1

/-! ## The query pipeline commutes the stable sort with the filters -/

theorem applyQFilter_insSort (sb : String) (rev : Bool) (q : Option String)
    (l : List Issue) :
    applyQFilter q (insSort (issueLe sb rev) l) =
      insSort (issueLe sb rev) (applyQFilter q l) := by
  cases q with
  | none => rfl
  | some s =>
    by_cases hs : s = ""
    · simp [applyQFilter, hs]
    · simp only [applyQFilter, hs, if_neg, ite_false]
      exact filter_insSort (issueLe sb rev) (titleMatches s)
        (issueLe_total sb rev) (issueLe_trans sb rev) l

theorem applyLabelFilter_insSort (sb : String) (rev : Bool) (lab : Option String)
    (l : List Issue) :
    applyLabelFilter lab (insSort (issueLe sb rev) l) =
      insSort (issueLe sb rev) (applyLabelFilter lab l) := by
  cases lab with
  | none => rfl
  | some s =>
    by_cases hs : s = ""
    · simp [applyLabelFilter, hs]
    · simp only [applyLabelFilter, hs, if_neg, ite_false]
      exact filter_insSort (issueLe sb rev) (labelMatches s)
        (issueLe_total sb rev) (issueLe_trans sb rev) l

/-- C4: for every stored issue list and every combination of text
filter, label filter, sort field, sort order, page and page size, the
issue query of `get_issues` (which sorts first, then filters, then
paginates) returns the same page and the same filtered-set size as the
reference pipeline that filters first, then applies the stable sort,
then paginates.  The two pipelines agree because the sort is stable and
the filters are pointwise predicates. -/
theorem C4_filter_sort_paginate_equivalence
    (issues : List Issue) (q label : Option String) (page pageSize : Int)
    (sort_by sort_order : Option String) :
    get_issues_core issues q label page pageSize sort_by sort_order =
      get_issues_refPipeline issues q label page pageSize sort_by sort_order := by
  simp only [get_issues_core, get_issues_refPipeline]
  rw [applyQFilter_insSort, applyLabelFilter_insSort, length_insSort]

/-! ## Monotonicity and stability of the sorted query (C5) -/

theorem pairwise_applyQFilterT (R : Nat × Issue → Nat × Issue → Prop)
    (q : Option String) (l : List (Nat × Issue)) (hl : l.Pairwise R) :
    (applyQFilterT q l).Pairwise R := by
  cases q with
  | none => exact hl
  | some s =>
    by_cases hs : s = ""
    · simpa [applyQFilterT, hs] using hl
    · simpa [applyQFilterT, hs] using hl.filter (fun p => titleMatches s p.2)

theorem pairwise_applyLabelFilterT (R : Nat × Issue → Nat × Issue → Prop)
    (lab : Option String) (l : List (Nat × Issue)) (hl : l.Pairwise R) :
    (applyLabelFilterT lab l).Pairwise R := by
  cases lab with
  | none => exact hl
  | some s =>
    by_cases hs : s = ""
    · simpa [applyLabelFilterT, hs] using hl
    · simpa [applyLabelFilterT, hs] using hl.filter (fun p => labelMatches s p.2)

theorem map_snd_applyQFilterT (q : Option String) (l : List (Nat × Issue)) :
    (applyQFilterT q l).map Prod.snd = applyQFilter q (l.map Prod.snd) := by
  cases q with
  | none => rfl
  | some s =>
    by_cases hs : s = ""
    · simp [applyQFilterT, applyQFilter, hs]
    · simp only [applyQFilterT, applyQFilter, hs, if_neg, ite_false]
      rw [List.filter_map]
      simp [Function.comp_def]

theorem map_snd_applyLabelFilterT (lab : Option String) (l : List (Nat × Issue)) :
    (applyLabelFilterT lab l).map Prod.snd = applyLabelFilter lab (l.map Prod.snd) := by
  cases lab with
  | none => rfl
  | some s =>
    by_cases hs : s = ""
    · simp [applyLabelFilterT, applyLabelFilter, hs]
    · simp only [applyLabelFilterT, applyLabelFilter, hs, if_neg, ite_false]
      rw [List.filter_map]
      simp [Function.comp_def]

/-- C5: for every sort field among `created_at`, `age_days`, `title`,
`number` and each order among `asc` and `desc`, the page returned by the
issue query is monotonic in the chosen key under that order, with issues
whose keys compare equal appearing in their original insertion order.
Formally: running the pipeline over position-tagged issues yields a list
that is pairwise ordered by "key strictly before, or tied with smaller
original position" (`stepRelB`), and projecting the tags away yields
exactly the page returned by `get_issues`. -/
theorem C5_sort_monotone_and_stable (issues : List Issue)
    (q label : Option String) (page pageSize : Int) (sb ord : String)
    (hsb : sb ∈ validSortFields) (_hord : ord = "asc" ∨ ord = "desc") :
    (get_issues_tagged issues q label page pageSize sb
        (resolveRev (some ord))).Pairwise
      (fun x y => stepRelB (issueLe sb (resolveRev (some ord))) x y = true) ∧
    (get_issues_tagged issues q label page pageSize sb
        (resolveRev (some ord))).map Prod.snd =
      (get_issues_core issues q label page pageSize (some sb) (some ord)).1 := by
  constructor
  · simp only [get_issues_tagged, taggedIssueLe]
    apply List.Pairwise.sublist (pySlice_sublist _ _ _)
    apply pairwise_applyLabelFilterT
    apply pairwise_applyQFilterT
    exact pairwise_stepRelB_insSort (issueLe sb (resolveRev (some ord)))
      (issueLe_total sb (resolveRev (some ord)))
      (issueLe_trans sb (resolveRev (some ord))) 0 issues
  · have hsb2 : resolveSortBy (some sb) = sb := by
      simp [resolveSortBy, hsb]
    have htle : taggedIssueLe sb (resolveRev (some ord)) =
        (fun x y => issueLe sb (resolveRev (some ord)) (Prod.snd x) (Prod.snd y)) := rfl
    have hl : (applyLabelFilterT label (applyQFilterT q
          (insSort (taggedIssueLe sb (resolveRev (some ord)))
            (tagFrom 0 issues)))).map Prod.snd =
        applyLabelFilter label (applyQFilter q
          (insSort (issueLe sb (resolveRev (some ord))) issues)) := by
      rw [map_snd_applyLabelFilterT, map_snd_applyQFilterT, htle,
        ← map_insSort, map_snd_tagFrom]
    simp only [get_issues_tagged, get_issues_core, hsb2]
    rw [pySlice_map, hl]

/-- Witness for C5 at a concrete input with a `created_at` tie: the two
issues keep their insertion order. -/
theorem C5_sort_monotone_and_stable_witness :
    "created_at" ∈ validSortFields ∧
    ((get_issues_tagged c5Issues none none 1 100 "created_at"
        (resolveRev (some "asc"))).Pairwise
      (fun x y => stepRelB (issueLe "created_at" (resolveRev (some "asc"))) x y = true) ∧
    (get_issues_tagged c5Issues none none 1 100 "created_at"
        (resolveRev (some "asc"))).map Prod.snd =
      (get_issues_core c5Issues none none 1 100 (some "created_at") (some "asc")).1) :=
  ⟨by decide,
    C5_sort_monotone_and_stable c5Issues none none 1 100 "created_at" "asc"
      (by decide) (Or.inl rfl)⟩

/-! ## The structured-output extractor (C9) -/

theorem extractScan_eq_findSome (l : List DevinMessage) :
    extractScan l = (l.filter (fun m => m.type == "devin_message")).findSome?
      (fun m => firstValidBlock (findJsonBlocks m.message)) := by
  induction l with
  | nil => rfl
  | cons m rest ih =>
    cases ht : m.type == "devin_message" with
    | false => simp [extractScan, ht, ih]
    | true =>
      cases hb : firstValidBlock (findJsonBlocks m.message) with
      | none => simp [extractScan, ht, hb, ih]
      | some kvs => simp [extractScan, ht, hb]

/-- C9, counterexample: the extractor does not scan every transcript
message — a structurally valid fenced block inside a message whose type
is not `devin_message` is ignored, so on the transcript `c9Msgs` the
implemented extractor returns `none` while the claimed scan over all
messages returns the parsed block. -/
theorem C9_counterexample :
    extract_structured_output_from_messages c9Msgs ≠ extractAllMessages c9Msgs := by
  intro h
  have h2 : (extractAllMessages c9Msgs).isSome = true := rfl
  rw [← h] at h2
  have h1 : extract_structured_output_from_messages c9Msgs = none := rfl
  rw [h1] at h2
  simp at h2

/-- C9 (amended): the extractor scans only the agent-authored
(`devin_message`) transcript entries, most recent first, and returns the
first fenced block that parses as an object containing at minimum
`progress_pct`, `status` and `summary`; malformed fragments are skipped
and absence is returned when no such block exists.  Formally the
implementation equals the declarative pipeline `extractSpecDevin`
(reverse, keep `devin_message` entries, first valid block). -/
theorem C9_extractor_scans_agent_messages (messages : List DevinMessage) :
    extract_structured_output_from_messages messages = extractSpecDevin messages := by
  unfold extract_structured_output_from_messages extractSpecDevin
  exact extractScan_eq_findSome messages.reverse

/-! ## Association-list lemmas -/

theorem lookupA_hasKeyA (l : List (String × β)) (k : String) (v : β)
    (h : lookupA l k = some v) : hasKeyA l k = true := by
  induction l with
  | nil => simp [lookupA] at h
  | cons p t ih =>
    cases hk : p.1 == k with
    | false =>
      simp only [lookupA] at h
      rw [List.find?_cons_of_neg _ (by simp [hk])] at h
      have hrec := ih h
      simp only [hasKeyA, List.any_cons, hk, Bool.false_or]
      exact hrec
    | true => simp [hasKeyA, List.any_cons, hk]

theorem lookupA_updateA (l : List (String × β)) (k : String) (f : β → β) :
    lookupA (updateA l k f) k = (lookupA l k).map f := by
  induction l with
  | nil => rfl
  | cons p t ih =>
    cases hk : p.1 == k with
    | false =>
      simp only [updateA, List.map_cons, hk, Bool.false_eq_true, if_false, lookupA]
      rw [List.find?_cons_of_neg _ (by simp [hk]),
        List.find?_cons_of_neg _ (by simp [hk])]
      exact ih
    | true =>
      simp only [updateA, List.map_cons, hk, if_true, lookupA]
      rw [List.find?_cons_of_pos _ (by simp [hk]),
        List.find?_cons_of_pos _ (by simp [hk])]
      rfl

/-! ## The PR trigger is guarded by `pr_created` (C1, C6) -/

theorem prTriggerCond_false_of_created (status : String)
    (so : Option (List (String × Json))) (sid : String)
    (prStore : List (String × PRIntentData)) (it : PRIntentData)
    (hlk : lookupA prStore sid = some it) (hcr : it.pr_created = true) :
    prTriggerCond status so sid prStore = false := by
  simp [prTriggerCond, hlk, hcr]

theorem poll_noop_of_created (sid : String) (env : PollEnv)
    (sessions : List (String × SessionMeta))
    (prStore : List (String × PRIntentData)) (it : PRIntentData)
    (hlk : lookupA prStore sid = some it) (hcr : it.pr_created = true) :
    (get_devin_session_model sid env sessions prStore).prStore = prStore ∧
    (get_devin_session_model sid env sessions prStore).prCalled = false := by
  cases hf : env.fetch with
  | error e => simp [get_devin_session_model, hf]
  | ok sd =>
    simp [get_devin_session_model, hf, prTriggerStep,
      prTriggerCond_false_of_created _ _ _ _ _ hlk hcr]

theorem pollFold_noop_of_created (sid : String) (envs : List PollEnv) :
    ∀ (sessions : List (String × SessionMeta))
      (prStore : List (String × PRIntentData)) (it : PRIntentData),
      lookupA prStore sid = some it → it.pr_created = true →
      (pollFold sid envs sessions prStore).prStore = prStore ∧
      (pollFold sid envs sessions prStore).calls = 0 := by
  induction envs with
  | nil => intro sessions prStore it hlk hcr; simp [pollFold]
  | cons e rest ih =>
    intro sessions prStore it hlk hcr
    have hstep := poll_noop_of_created sid e sessions prStore it hlk hcr
    have htail := ih (get_devin_session_model sid e sessions prStore).sessions
      prStore it hlk hcr
    simp only [pollFold, hstep.1, hstep.2, htail.1, htail.2]
    simp

/-- C1: for a completed session with a `PRCreationIntent` whose
`pr_created` flag is false, a nonempty sequence of polls (each observing
upstream status `completed`, each PR creation succeeding) invokes the
GitHub PR-create call exactly once in total and leaves the flag at
`true`; and (second conjunct) once `pr_created` is true, a poll never
attempts the call nor changes the store — the flag is never reset. -/
theorem C1_pr_trigger_exactly_once :
    (∀ (sid : String) (envs : List PollEnv)
       (sessions : List (String × SessionMeta))
       (prStore : List (String × PRIntentData)) (it : PRIntentData),
       lookupA prStore sid = some it → it.pr_created = false →
       (∀ e ∈ envs, (∃ sd, e.fetch = Except.ok sd ∧ sd.status = some "completed") ∧
         e.prResult.isSome = true) →
       envs ≠ [] →
       (pollFold sid envs sessions prStore).calls = 1 ∧
       ∃ it2, lookupA (pollFold sid envs sessions prStore).prStore sid = some it2 ∧
         it2.pr_created = true) ∧
    (∀ (sid : String) (env : PollEnv) (sessions : List (String × SessionMeta))
       (prStore : List (String × PRIntentData)) (it : PRIntentData),
       lookupA prStore sid = some it → it.pr_created = true →
       (get_devin_session_model sid env sessions prStore).prStore = prStore ∧
       (get_devin_session_model sid env sessions prStore).prCalled = false) := by
  constructor
  · intro sid envs sessions prStore it hlk hcr hall hne
    cases envs with
    | nil => exact absurd rfl hne
    | cons e rest =>
      obtain ⟨⟨sd, hfe, hst⟩, hpr⟩ := hall e (by simp)
      obtain ⟨url, hurl⟩ := Option.isSome_iff_exists.mp hpr
      have hk := lookupA_hasKeyA prStore sid it hlk
      have hcond : prTriggerCond (sd.status.getD "unknown")
          ((computeStructuredOutput (sd.status.getD "unknown")
            sd.structured_output sd.messages).1) sid prStore = true := by
        simp [prTriggerCond, hst, hlk, hcr, hk]
      have hstep : (get_devin_session_model sid e sessions prStore).prStore =
            updateA prStore sid (fun j => { j with pr_created := true }) ∧
          (get_devin_session_model sid e sessions prStore).prCalled = true := by
        simp [get_devin_session_model, hfe, prTriggerStep, hcond, hurl]
      have hlk2 : lookupA (updateA prStore sid
            (fun j => { j with pr_created := true })) sid =
          some { it with pr_created := true } := by
        rw [lookupA_updateA, hlk]; rfl
      have htail := pollFold_noop_of_created sid rest
        (get_devin_session_model sid e sessions prStore).sessions
        (updateA prStore sid (fun j => { j with pr_created := true }))
        { it with pr_created := true } hlk2 rfl
      constructor
      · simp only [pollFold, hstep.1, hstep.2, htail.2]
        simp
      · refine ⟨{ it with pr_created := true }, ?_, rfl⟩
        simp only [pollFold, hstep.1, htail.1]
        exact hlk2
  · intro sid env sessions prStore it hlk hcr
    exact poll_noop_of_created sid env sessions prStore it hlk hcr

/-- Witness for C1: three successful polls of a completed session with a
fresh intent make exactly one PR-create call and leave `pr_created`
true. -/
theorem C1_pr_trigger_exactly_once_witness :
    (pollFold "s1" c1Envs [] [("s1", c1Intent)]).calls = 1 ∧
    ∃ it2, lookupA (pollFold "s1" c1Envs [] [("s1", c1Intent)]).prStore "s1" = some it2 ∧
      it2.pr_created = true :=
  C1_pr_trigger_exactly_once.1 "s1" c1Envs [] [("s1", c1Intent)] c1Intent rfl rfl
    (by
      intro e he
      have he2 : e = c1Env := by simpa [c1Envs] using he
      subst he2
      exact ⟨⟨⟨some "completed", none, [], some "http://u"⟩, rfl, rfl⟩, rfl⟩)
    (by simp [c1Envs])

/-- C2: on a poll whose upstream status is `completed`, with no upstream
structured output, and whose transcript fallback also yields nothing,
the endpoint returns a response whose `structured_output` is null — the
placeholder-synthesis branch (main.py lines 1139-1150) is unreachable
because it sits under `elif status == "running" and structured_output is
None` after `if structured_output is None`.  The second conjunct records
the structured-output computation at that input: it stays `none` (and
the endpoint instead asks the agent to update its output). -/
theorem C2_completed_poll_keeps_null_output :
    (get_devin_session_model "s2" c2Env [] []).resp =
      Except.ok ⟨"completed", none, "http://u"⟩ ∧
    computeStructuredOutput "completed" none [] = (none, true) :=
  ⟨rfl, rfl⟩

/-- C6: when the PR-create call of a poll of a completed session fails,
`pr_creation_store` is unchanged (so `pr_created` stays false and the
next poll retries), the call was attempted, and the poll still returns a
normal non-error response carrying the upstream status. -/
theorem C6_pr_failure_isolated (sid : String) (env : PollEnv) (sd : SessionData)
    (sessions : List (String × SessionMeta))
    (prStore : List (String × PRIntentData)) (it : PRIntentData)
    (hfe : env.fetch = Except.ok sd) (hst : sd.status = some "completed")
    (hpr : env.prResult = none)
    (hlk : lookupA prStore sid = some it) (hcr : it.pr_created = false) :
    (get_devin_session_model sid env sessions prStore).prStore = prStore ∧
    lookupA (get_devin_session_model sid env sessions prStore).prStore sid = some it ∧
    (get_devin_session_model sid env sessions prStore).prCalled = true ∧
    ∃ r, (get_devin_session_model sid env sessions prStore).resp = Except.ok r ∧
      r.status = "completed" := by
  have hk := lookupA_hasKeyA prStore sid it hlk
  have hcond : prTriggerCond (sd.status.getD "unknown")
      ((computeStructuredOutput (sd.status.getD "unknown")
        sd.structured_output sd.messages).1) sid prStore = true := by
    simp [prTriggerCond, hst, hlk, hcr, hk]
  refine ⟨?_, ?_, ?_, ?_⟩
  · simp [get_devin_session_model, hfe, prTriggerStep, hcond, hpr]
  · simp [get_devin_session_model, hfe, prTriggerStep, hcond, hpr, hlk]
  · simp [get_devin_session_model, hfe, prTriggerStep, hcond, hpr]
  · have hresp : (get_devin_session_model sid env sessions prStore).resp =
        Except.ok ⟨sd.status.getD "unknown",
          (computeStructuredOutput (sd.status.getD "unknown")
            sd.structured_output sd.messages).1,
          sd.url.getD ("https://app.devin.ai/sessions/" ++ removePrefixStr sid "devin-")⟩ := by
      simp [get_devin_session_model, hfe, prTriggerStep, hcond, hpr]
    exact ⟨_, hresp, by simp [hst]⟩

/-- Witness for C6 at a concrete failing poll. -/
theorem C6_pr_failure_isolated_witness :
    (get_devin_session_model "s6" c6Env [] [("s6", c6Intent)]).prStore =
      [("s6", c6Intent)] ∧
    lookupA (get_devin_session_model "s6" c6Env [] [("s6", c6Intent)]).prStore "s6" =
      some c6Intent ∧
    (get_devin_session_model "s6" c6Env [] [("s6", c6Intent)]).prCalled = true ∧
    ∃ r, (get_devin_session_model "s6" c6Env [] [("s6", c6Intent)]).resp =
      Except.ok r ∧ r.status = "completed" :=
  C6_pr_failure_isolated "s6" c6Env ⟨some "completed", none, [], some "http://u"⟩
    [] [("s6", c6Intent)] c6Intent rfl rfl rfl rfl rfl

/-! ## Unapproved execution is rejected without side effects (C7) -/

/-- C7: calling `execute_plan` with `approved = false` yields the 400
"Plan must be explicitly approved before execution" rejection (the
ConflictError of the specification's taxonomy) and changes nothing: the
session store and `pr_creation_store` are returned untouched and no
message is sent to the agent service. -/
theorem C7_unapproved_execute_rejected (issue_id : Int) (req : ExecuteRequest)
    (issuesStore : List (String × List Issue)) (repos : List (String × RepoData))
    (sessions : List (String × SessionMeta)) (prStore : List (String × PRIntentData))
    (sendResult : CallOutcome) (apiKey : String) (now : ℚ)
    (h : req.approved = false) :
    execute_plan_model issue_id req issuesStore repos sessions prStore
        sendResult apiKey now =
      ⟨Except.error ⟨400, "Plan must be explicitly approved before execution"⟩,
        sessions, prStore, []⟩ := by
  simp [execute_plan_model, h]

/-- Witness for C7 at a concrete unapproved request. -/
theorem C7_unapproved_execute_rejected_witness :
    execute_plan_model 1 c7Req [] [] [] [] CallOutcome.ok "" 0 =
      ⟨Except.error ⟨400, "Plan must be explicitly approved before execution"⟩,
        [], [], []⟩ :=
  C7_unapproved_execute_rejected 1 c7Req [] [] [] [] CallOutcome.ok "" 0 rfl

/-! ## Cancellation refreshes the TTL (C10) -/

theorem lookupA_filter (l : List (String × β)) (k : String) (v : β)
    (p : String × β → Bool)
    (hlk : lookupA l k = some v) (hp : p (k, v) = true) :
    lookupA (l.filter p) k = some v := by
  induction l with
  | nil => simp [lookupA] at hlk
  | cons q t ih =>
    cases hk : q.1 == k with
    | true =>
      have hq : q.1 = k := by simpa using hk
      simp only [lookupA] at hlk
      rw [List.find?_cons_of_pos _ (by simp [hk])] at hlk
      have hv : q.2 = v := by simpa using hlk
      have hqkv : q = (k, v) := by
        cases q
        simp only at hq hv
        simp [hq, hv]
      rw [List.filter_cons, if_pos (by simp [hqkv, hp])]
      simp only [lookupA]
      rw [List.find?_cons_of_pos _ (by simp [hk])]
      simp [hv]
    | false =>
      simp only [lookupA] at hlk
      rw [List.find?_cons_of_neg _ (by simp [hk])] at hlk
      have hrec := ih hlk
      rw [List.filter_cons]
      cases hpq : p q with
      | true =>
        rw [if_pos (by simp [hpq])]
        simp only [lookupA]
        rw [List.find?_cons_of_neg _ (by simp [hk])]
        exact hrec
      | false =>
        rw [if_neg (by simp [hpq])]
        exact hrec

theorem cleanup_keeps (now : ℚ) (sessions : List (String × SessionMeta))
    (sid : String) (m : SessionMeta)
    (hlk : lookupA sessions sid = some m) (hm : ¬ m.last_accessed < now - 24) :
    lookupA (cleanup_old_sessions_model now sessions).1 sid = some m := by
  simp only [cleanup_old_sessions_model]
  exact lookupA_filter sessions sid m _ hlk (by simp [hm])

theorem sweeps_keep (sid : String) (m : SessionMeta) (sweeps : List ℚ) :
    ∀ acc : List (String × SessionMeta),
      lookupA acc sid = some m →
      (∀ u ∈ sweeps, ¬ m.last_accessed < u - 24) →
      lookupA (sweeps.foldl (fun a u => (cleanup_old_sessions_model u a).1) acc)
        sid = some m := by
  induction sweeps with
  | nil =>
    intro acc h _
    simpa using h
  | cons u rest ih =>
    intro acc h hall
    simp only [List.foldl_cons]
    exact ih _ (cleanup_keeps u acc sid m h (hall u (by simp)))
      (fun w hw => hall w (by simp [hw]))

/-- C10: cancelling a stored session sets its status to `cancelled` and
refreshes `last_accessed` to the cancellation time `t`; consequently the
session survives any sequence of cleanup sweeps run at times up to
`t + 24` hours, still carrying status `cancelled` and `last_accessed = t`. -/
theorem C10_cancel_refreshes_ttl (sessions : List (String × SessionMeta))
    (sid : String) (t : ℚ) (sweeps : List ℚ) (m : SessionMeta)
    (hlk : lookupA sessions sid = some m)
    (hsw : ∀ u ∈ sweeps, u ≤ t + 24) :
    ∃ m2, lookupA (sweeps.foldl (fun acc u => (cleanup_old_sessions_model u acc).1)
        (cancel_session_model sid t sessions).2) sid = some m2 ∧
      m2.status = "cancelled" ∧ m2.last_accessed = t := by
  have hk := lookupA_hasKeyA sessions sid m hlk
  have hcancel : (cancel_session_model sid t sessions).2 =
      updateA sessions sid
        (fun j => { j with status := "cancelled", last_accessed := t }) := by
    simp [cancel_session_model, hk]
  have hlk2 : lookupA (updateA sessions sid
        (fun j => { j with status := "cancelled", last_accessed := t })) sid =
      some { m with status := "cancelled", last_accessed := t } := by
    rw [lookupA_updateA, hlk]; rfl
  refine ⟨{ m with status := "cancelled", last_accessed := t }, ?_, rfl, rfl⟩
  rw [hcancel]
  refine sweeps_keep sid _ sweeps _ hlk2 ?_
  intro u hu
  have h1 := hsw u hu
  show ¬ t < u - 24
  intro h2
  linarith

/-- Witness for C10: a session cancelled at time 0 survives sweeps at
times 1 and 24. -/
theorem C10_cancel_refreshes_ttl_witness :
    ∃ m2, lookupA ([(1 : ℚ), 24].foldl
        (fun acc u => (cleanup_old_sessions_model u acc).1)
        (cancel_session_model "a" 0 [("a", c10Meta)]).2) "a" = some m2 ∧
      m2.status = "cancelled" ∧ m2.last_accessed = 0 :=
  C10_cancel_refreshes_ttl [("a", c10Meta)] "a" 0 [1, 24] c10Meta rfl
    (by
      intro u hu
      simp only [List.mem_cons, List.not_mem_nil, or_false] at hu
      rcases hu with rfl | rfl
      · norm_num
      · norm_num)

/-! ## The active-session listing (C3) -/

/-- C3, counterexample: the listing is not "exactly the sessions whose
phase is neither `completed` nor `cancelled`" — the source filters
`["completed", "failed"]`, so a `cancelled` session with resolvable
issue metadata is still returned.  On the concrete store `c3Sessions`
(one cancelled session) the claimed if-and-only-if characterisation
fails. -/
theorem C3_counterexample :
    ¬ (∀ (sessions : List (String × SessionMeta))
         (issuesStore : List (String × List Issue))
         (repos : List (String × RepoData))
         (result : List ActiveSessionResponse),
         get_active_sessions_model sessions issuesStore repos = Except.ok result →
         ∀ (sid : String) (sd : SessionMeta), (sid, sd) ∈ sessions →
           ((∃ e ∈ result, e.session_id = sid) ↔
             (sd.status ≠ "completed" ∧ sd.status ≠ "cancelled"))) := by
  intro h
  have h2 := h c3Sessions c3Issues c3Repos [c3Entry] rfl "sC" c3Meta (by simp [c3Sessions])
  have h3 : ∃ e ∈ [c3Entry], e.session_id = "sC" := ⟨c3Entry, by simp, rfl⟩
  exact (h2.mp h3).2 rfl

/-- C3 (amended): whenever the listing succeeds, it returns exactly the
sessions whose status is neither `completed` nor `failed` and whose
issue id resolves to a stored issue with present repository metadata,
in store order, each joined with the issue's title and the repository's
name (the declarative pipeline `activeSessionsRef`).  In particular
`cancelled` sessions are still listed, and the listing raises when a
non-terminal session's issue is found but its repository metadata is
missing. -/
theorem C3_active_listing_amended (sessions : List (String × SessionMeta))
    (issuesStore : List (String × List Issue)) (repos : List (String × RepoData))
    (result : List ActiveSessionResponse)
    (h : get_active_sessions_model sessions issuesStore repos = Except.ok result) :
    result = activeSessionsRef sessions issuesStore repos := by
  induction sessions generalizing result with
  | nil =>
    simp only [get_active_sessions_model, Except.ok.injEq] at h
    simp [activeSessionsRef, ← h]
  | cons p rest ih =>
    obtain ⟨sid, sd⟩ := p
    cases hterm : (sd.status == "completed" || sd.status == "failed") with
    | true =>
      have hterm2 : sd.status = "completed" ∨ sd.status = "failed" := by
        simpa using hterm
      simp only [get_active_sessions_model, hterm, if_true] at h
      rw [ih result h]
      simp [activeSessionsRef, List.filterMap_cons, hterm2]
    | false =>
      have hterm2 : ¬ (sd.status = "completed" ∨ sd.status = "failed") := by
        simpa using hterm
      cases hfi : findIssueRepo issuesStore sd.issue_id with
      | none =>
        simp only [get_active_sessions_model, hterm, Bool.false_eq_true,
          if_false, hfi] at h
        rw [ih result h]
        simp [activeSessionsRef, List.filterMap_cons, hterm2, hfi]
      | some pr =>
        obtain ⟨rid, issue⟩ := pr
        cases hlr : lookupA repos rid with
        | none =>
          simp only [get_active_sessions_model, hterm, Bool.false_eq_true,
            if_false, hfi, hlr] at h
          exact Except.noConfusion h
        | some repo =>
          cases htail : get_active_sessions_model rest issuesStore repos with
          | error e =>
            simp only [get_active_sessions_model, hterm, Bool.false_eq_true,
              if_false, hfi, hlr, htail] at h
            exact Except.noConfusion h
          | ok tail =>
            simp only [get_active_sessions_model, hterm, Bool.false_eq_true,
              if_false, hfi, hlr, htail, Except.ok.injEq] at h
            rw [← h, ih tail htail]
            simp [activeSessionsRef, List.filterMap_cons, hterm2, hfi, hlr]

/-- Witness for C3 (amended) on the concrete cancelled-session store. -/
theorem C3_active_listing_amended_witness :
    get_active_sessions_model c3Sessions c3Issues c3Repos = Except.ok [c3Entry] ∧
    [c3Entry] = activeSessionsRef c3Sessions c3Issues c3Repos :=
  ⟨rfl, C3_active_listing_amended c3Sessions c3Issues c3Repos [c3Entry] rfl⟩

/-! ## Secret scrubbing on error paths (C8) -/

theorem infix_append_of_charDisjoint (key a b : List Char)
    (hne : key ≠ []) (hd : charDisjoint key a) (h : key <:+: a ++ b) :
    key <:+: b := by
  induction a with
  | nil => simpa using h
  | cons c a2 ih =>
    have h2 : key <:+: c :: (a2 ++ b) := by simpa using h
    rcases List.infix_cons_iff.mp h2 with hpre | hinf
    · cases key with
      | nil => exact absurd rfl hne
      | cons k ks =>
        have hkc : k = c := (List.cons_prefix_cons.mp hpre).1
        have hnotin : k ∉ c :: a2 := hd k (by simp)
        exact absurd (by simp [hkc]) hnotin
    · exact ih (fun x hx hxa => hd x hx (List.mem_cons_of_mem c hxa)) hinf

theorem prefix_pyReplaceAux (key rep : List Char) (hrep : rep ≠ []) :
    ∀ (fuel : Nat) (s p : List Char),
      (∀ c ∈ p, c ∉ rep) → p.length < key.length →
      p <+: pyReplaceAux key rep fuel s → p <+: s := by
  intro fuel
  induction fuel with
  | zero =>
    intro s p _ _ hp
    cases s with
    | nil => simpa [pyReplaceAux] using hp
    | cons c rest => simpa [pyReplaceAux] using hp
  | succ fuel ih =>
    intro s p hdisj hlen hp
    cases s with
    | nil => simpa [pyReplaceAux] using hp
    | cons c rest =>
      by_cases hpre : key.isPrefixOf (c :: rest) = true
      · rw [show pyReplaceAux key rep (fuel + 1) (c :: rest) =
            rep ++ pyReplaceAux key rep fuel (rest.drop (key.length - 1)) from by
          simp [pyReplaceAux, hpre]] at hp
        cases p with
        | nil => exact List.nil_prefix
        | cons q qs =>
          cases hrep0 : rep with
          | nil => exact absurd hrep0 hrep
          | cons r0 rtl =>
            rw [hrep0] at hp
            have hq : q = r0 := (List.cons_prefix_cons.mp (by simpa using hp)).1
            have hnotin : q ∉ rep := hdisj q (by simp)
            exact absurd (by simp [hrep0, hq]) hnotin
      · rw [show pyReplaceAux key rep (fuel + 1) (c :: rest) =
            c :: pyReplaceAux key rep fuel rest from by
          simp [pyReplaceAux, hpre]] at hp
        cases p with
        | nil => exact List.nil_prefix
        | cons q qs =>
          obtain ⟨hq, hqs⟩ := List.cons_prefix_cons.mp hp
          have hqs2 : qs <+: rest := ih rest qs
            (fun x hx => hdisj x (List.mem_cons_of_mem q hx))
            (Nat.lt_of_succ_lt (by simpa using hlen))
            hqs
          rw [hq]
          exact List.cons_prefix_cons.mpr ⟨rfl, hqs2⟩

theorem not_infix_pyReplaceAux (key rep : List Char) (k0 : Char) (ks : List Char)
    (hkey : key = k0 :: ks) (hrep : rep ≠ []) (hd : charDisjoint key rep) :
    ∀ (fuel : Nat) (s : List Char), s.length ≤ fuel →
      ¬ key <:+: pyReplaceAux key rep fuel s := by
  intro fuel
  induction fuel with
  | zero =>
    intro s hs hinf
    have hs0 : s = [] := List.length_eq_zero.mp (Nat.le_zero.mp hs)
    subst hs0
    rw [show pyReplaceAux key rep 0 [] = [] from rfl, List.infix_nil] at hinf
    simp [hkey] at hinf
  | succ fuel ih =>
    intro s hs hinf
    cases s with
    | nil =>
      rw [show pyReplaceAux key rep (fuel + 1) [] = [] from rfl,
        List.infix_nil] at hinf
      simp [hkey] at hinf
    | cons c rest =>
      by_cases hpre : key.isPrefixOf (c :: rest) = true
      · rw [show pyReplaceAux key rep (fuel + 1) (c :: rest) =
            rep ++ pyReplaceAux key rep fuel (rest.drop (key.length - 1)) from by
          simp [pyReplaceAux, hpre]] at hinf
        have h2 := infix_append_of_charDisjoint key rep _ (by simp [hkey]) hd hinf
        have hlen2 : (rest.drop (key.length - 1)).length ≤ fuel := by
          have h3 : rest.length + 1 ≤ fuel + 1 := by simpa using hs
          have h4 := List.length_drop (key.length - 1) rest
          omega
        exact ih _ hlen2 h2
      · rw [show pyReplaceAux key rep (fuel + 1) (c :: rest) =
            c :: pyReplaceAux key rep fuel rest from by
          simp [pyReplaceAux, hpre]] at hinf
        rcases List.infix_cons_iff.mp hinf with hp | hi
        · nth_rewrite 1 [hkey] at hp
          obtain ⟨hk0, hks⟩ := List.cons_prefix_cons.mp hp
          have hks2 : ks <+: rest := prefix_pyReplaceAux key rep hrep fuel rest ks
            (fun x hx => hd x (by simp [hkey, hx]))
            (by rw [hkey, List.length_cons]; exact Nat.lt_succ_self _)
            hks
          have hkp : key <+: c :: rest := by
            rw [hkey, hk0]
            exact List.cons_prefix_cons.mpr ⟨rfl, hks2⟩
          exact hpre ( List.isPrefixOf_iff_prefix.mpr hkp)
        · exact ih rest (by simpa using hs) hi

theorem pyReplace_no_occurrence (s key rep : String)
    (hk : key ≠ "") (hrep : rep ≠ "") (hd : charDisjoint key.data rep.data) :
    pyStrIn key (pyReplace s key rep) = false := by
  have hkd : key.data ≠ [] := by
    intro h0
    exact hk (by cases key with | mk d => cases h0; rfl)
  have hrd : rep.data ≠ [] := by
    intro h0
    exact hrep (by cases rep with | mk d => cases h0; rfl)
  obtain ⟨k0, ks, hkey⟩ : ∃ k0 ks, key.data = k0 :: ks := by
    cases hke : key.data with
    | nil => exact absurd hke hkd
    | cons a b => exact ⟨a, b, rfl⟩
  have hne : key.data.isEmpty = false := by rw [hkey]; rfl
  simp only [pyReplace, hne, Bool.false_eq_true, if_false, pyStrIn]
  exact decide_eq_false
    (not_infix_pyReplaceAux key.data rep.data k0 ks hkey hrd hd s.data.length
      s.data le_rfl)

/-- C8, counterexample: the guard of `DevinAPIService.create_session`
(`api_key not in response.text`) only checks the appended component, so
a secret can straddle the boundary between the fixed template (with the
rendered status code) and the response text: with API key `0 - x`,
status code 500 and response text `x`, the surfaced detail contains the
key as a literal substring. -/
theorem C8_counterexample :
    create_session_error_detail "0 - x" "500" "x" =
      "Failed to create Devin session: 500 - x" ∧
    pyStrIn "0 - x" (create_session_error_detail "0 - x" "500" "x") = true := by
  constructor
  · rfl
  · decide

/-- C8 (amended): on the two cited error paths the scrub is effective
provided the secret cannot straddle component boundaries: for a nonempty
secret sharing no character with the surrounding fixed template text
(including the rendered status code) or the `[REDACTED]` marker, the
surfaced error detail never contains the secret — on the `connect_repo`
path every occurrence in the exception text is replaced, and on the
`create_session` path the response text is only appended when it does
not contain the key.  (The counterexample shows the restriction is
necessary.) -/
theorem C8_scrub_no_secret_modulo_boundaries :
    (∀ pat excText : String, pat ≠ "" →
       charDisjoint pat.data ("Internal server error: ".data ++ "[REDACTED]".data) →
       pyStrIn pat (connect_repo_error_detail pat excText) = false) ∧
    (∀ apiKey codeStr respText : String, apiKey ≠ "" →
       charDisjoint apiKey.data
         (("Failed to create Devin session: " ++ codeStr ++ " - ").data) →
       pyStrIn apiKey (create_session_error_detail apiKey codeStr respText) = false) := by
  constructor
  · intro pat exc hne hd
    have hnenil : pat.data ≠ [] := by
      intro h0
      exact hne (by cases pat with | mk d => cases h0; rfl)
    have hd1 : charDisjoint pat.data "Internal server error: ".data :=
      fun c hc hm => hd c hc (List.mem_append_left _ hm)
    have hd2 : charDisjoint pat.data "[REDACTED]".data :=
      fun c hc hm => hd c hc (List.mem_append_right _ hm)
    simp only [connect_repo_error_detail]
    cases hin : pyStrIn pat exc with
    | true =>
      simp only [hin, if_true, pyStrIn]
      apply decide_eq_false
      intro hinf
      rw [String.data_append] at hinf
      have h2 := infix_append_of_charDisjoint _ _ _ hnenil hd1 hinf
      have h3 : pyStrIn pat (pyReplace exc pat "[REDACTED]") = false :=
        pyReplace_no_occurrence exc pat "[REDACTED]" hne (by decide) hd2
      exact (of_decide_eq_false h3) h2
    | false =>
      simp only [hin, Bool.false_eq_true, if_false, pyStrIn]
      apply decide_eq_false
      intro hinf
      rw [String.data_append] at hinf
      have h2 := infix_append_of_charDisjoint _ _ _ hnenil hd1 hinf
      have h3 : pyStrIn pat exc = true := decide_eq_true h2
      rw [hin] at h3
      cases h3
  · intro apiKey codeStr respText hne hd
    have hnenil : apiKey.data ≠ [] := by
      intro h0
      exact hne (by cases apiKey with | mk d => cases h0; rfl)
    have hdbase : charDisjoint apiKey.data
        (("Failed to create Devin session: " ++ codeStr).data) := by
      intro c hc hm
      refine hd c hc ?_
      rw [String.data_append]
      exact List.mem_append_left _ hm
    simp only [create_session_error_detail]
    cases hc : ((respText ≠ "" : Bool) && !pyStrIn apiKey respText) with
    | true =>
      simp only [hc, if_true, pyStrIn]
      apply decide_eq_false
      intro hinf
      rw [String.data_append] at hinf
      have h2 := infix_append_of_charDisjoint _ _ _ hnenil hd hinf
      have h3 : pyStrIn apiKey respText = true := decide_eq_true h2
      simp [h3] at hc
    | false =>
      simp only [hc, Bool.false_eq_true, if_false, pyStrIn]
      apply decide_eq_false
      intro hinf
      have h2 := infix_append_of_charDisjoint apiKey.data
        (("Failed to create Devin session: " ++ codeStr).data) [] hnenil hdbase
        (by rw [List.append_nil]; exact hinf)
      rw [List.infix_nil] at h2
      exact hnenil h2

/-- Witness for C8 (amended): the secret `zq` shares no character with
the fixed templates, and indeed never appears in the surfaced details,
on both cited paths. -/
theorem C8_scrub_no_secret_modulo_boundaries_witness :
    pyStrIn "zq" (connect_repo_error_detail "zq" "token zq invalid") = false ∧
    pyStrIn "zq" (create_session_error_detail "zq" "500" "bad zq stuff") = false :=
  ⟨C8_scrub_no_secret_modulo_boundaries.1 "zq" "token zq invalid"
      (by decide) (by decide),
    C8_scrub_no_secret_modulo_boundaries.2 "zq" "500" "bad zq stuff"
      (by decide) (by decide)⟩
